import Mathlib

/-!
Verification development for a PDF outline-extraction repository.

The repository contains two top-level pipeline variants:
* HighPrecisionPDFExtractor in process_pdfs.py (namespace HP below), and
* PDFOutlineExtractor in process_pdfs_local.py (namespace LP below).

Both are embedded shallowly: the external text-extraction collaborator
(PyMuPDF) is modelled by passing the span collection as an argument, and
the external sentence-embedding model used by the high-precision variant
is modelled by a boolean oracle on strings (the source compares a cosine
similarity score against 0.25; the oracle stands for the outcome of that
comparison).  Font sizes are modelled as rationals.  Python regular
expressions used by the sources are anchored at the start and simple
enough to admit deterministic parsers; each parser mirrors one pattern.
All strings reaching the matchers in the pipelines are stripped, so the
whitespace give-back corner of Python lazy groups is unreachable; the
parsers require a non-empty remainder for the final lazy group.
-/

/-! ## Python string primitives -/

/-- Python str.strip for ASCII whitespace, on the character list so that
it reduces inside the kernel. -/
def pyStrip (s : String) : String :=
  String.mk
    (((s.data.dropWhile Char.isWhitespace).reverse.dropWhile
        Char.isWhitespace).reverse)

/-- Python str.rstrip for ASCII whitespace. -/
def pyRstrip (s : String) : String :=
  String.mk (s.data.reverse.dropWhile Char.isWhitespace).reverse

/-- Python str.lower restricted to ASCII. -/
def pyLower (s : String) : String := String.mk (s.data.map Char.toLower)

/-- Substring containment on character lists, as the Python in operator. -/
def isSubChars (needle : List Char) : List Char → Bool
  | [] => needle.isEmpty
  | c :: rest => needle.isPrefixOf (c :: rest) || isSubChars needle rest

/-- Substring containment for strings, as the Python in operator. -/
def isSubStr (needle hay : String) : Bool := isSubChars needle.data hay.data

/-- Python str.isupper: at least one letter and no lowercase letter (ASCII). -/
def pyIsUpper (s : String) : Bool :=
  s.data.any Char.isAlpha && s.data.all (fun c => !c.isAlpha || c.isUpper)

/-- Python str.isdigit: non-empty and all digits (ASCII). -/
def pyIsDigitStr (s : String) : Bool :=
  !s.data.isEmpty && s.data.all Char.isDigit

/-- Helper for pyIsTitle: walks the characters tracking whether the
previous character was cased and whether a cased character was seen. -/
def isTitleAux : List Char → Bool → Bool → Bool
  | [], _, found => found
  | c :: rest, prevCased, found =>
    if c.isUpper then
      if prevCased then false else isTitleAux rest true true
    else if c.isLower then
      if prevCased then isTitleAux rest true true else false
    else
      isTitleAux rest false found

/-- Python str.istitle: uppercase letters only follow uncased characters,
lowercase letters only follow cased ones, and a cased character exists. -/
def pyIsTitle (s : String) : Bool := isTitleAux s.data false false

/-- Helper for wordCount: counts maximal non-whitespace runs; the flag
records whether the previous character was inside a word. -/
def wordCountAux : List Char → Bool → Nat
  | [], _ => 0
  | c :: rest, inWord =>
    if c.isWhitespace then wordCountAux rest false
    else if inWord then wordCountAux rest true
    else wordCountAux rest true + 1

/-- Python len of str.split(): the number of maximal non-whitespace
runs. -/
def wordCount (s : String) : Nat := wordCountAux s.data false

/-- Python str.endswith for a single character. -/
def endsWithChar (s : String) (c : Char) : Bool :=
  match s.data.reverse with
  | [] => false
  | d :: _ => d == c

/-- Last character of a character list, with a default. -/
def lastCharD (l : List Char) (d : Char) : Char :=
  match l.reverse with
  | [] => d
  | c :: _ => c

/-! ## Deterministic parsers for the regular expressions of the sources -/

/-- Consumes a maximal non-empty digit run; returns the remainder. -/
def eatDigits1 : List Char → Option (List Char)
  | [] => none
  | c :: rest => if c.isDigit then some (rest.dropWhile Char.isDigit) else none

/-- Consumes a maximal non-empty whitespace run; returns the remainder. -/
def eatWs1 : List Char → Option (List Char)
  | [] => none
  | c :: rest =>
    if c.isWhitespace then some (rest.dropWhile Char.isWhitespace) else none

/-- Consumes one expected character. -/
def eatChar (ch : Char) : List Char → Option (List Char)
  | [] => none
  | c :: rest => if c == ch then some rest else none

/-- Consumes a case-insensitive ASCII literal. -/
def eatLiteralCI : List Char → List Char → Option (List Char)
  | [], rest => some rest
  | _, [] => none
  | l :: ls, c :: rest =>
    if c.toLower == l.toLower then eatLiteralCI ls rest else none

/-- Consumes a case-sensitive literal. -/
def eatLiteral : List Char → List Char → Option (List Char)
  | [], rest => some rest
  | _, [] => none
  | l :: ls, c :: rest => if c == l then eatLiteral ls rest else none

/-- Python word character for the regex class backslash-w (ASCII model). -/
def isWordChar (c : Char) : Bool := c.isAlphanum || c == '_'

/-- Helper for digitRuns: walks the characters, carrying the value of the
digit run currently being read. -/
def digitRunsAux : List Char → Option Nat → List Nat
  | [], none => []
  | [], some n => [n]
  | c :: rest, none =>
    if c.isDigit then digitRunsAux rest (some (c.toNat - 48))
    else digitRunsAux rest none
  | c :: rest, some n =>
    if c.isDigit then digitRunsAux rest (some (n * 10 + (c.toNat - 48)))
    else n :: digitRunsAux rest none

/-- Maximal digit runs of a character list, as Python re.findall of a
digit-run pattern, each run converted to a number. -/
def digitRuns (l : List Char) : List Nat := digitRunsAux l none

/-! ## Generic stable insertion sort (the Python list.sort used by the
sources is a stable ascending sort; the comparator below realizes the
usual key-based stable placement). -/

/-- Stable insertion of one element: x goes before the first y whose key
does not precede it, so earlier elements win ties. -/
def pyInsert (le : α → α → Bool) (x : α) : List α → List α
  | [] => [x]
  | y :: ys => if le x y then x :: y :: ys else y :: pyInsert le x ys

/-- Stable insertion sort. -/
def pySort (le : α → α → Bool) : List α → List α
  | [] => []
  | x :: xs => pyInsert le x (pySort le xs)

/-- Deduplication keeping first occurrences, as iterating a Python
Counter or set in insertion order. -/
def dedupFirst [DecidableEq α] (l : List α) : List α :=
  l.foldl (fun acc x => if acc.contains x then acc else acc ++ [x]) []

/-- Python Counter.most_common(1): the first-encountered value of maximal
multiplicity.  Total with a junk default on the empty list (the sources
only apply it to non-empty collections). -/
def modeQ (l : List ℚ) : ℚ :=
  match dedupFirst l with
  | [] => 0
  | d :: ds => ds.foldl (fun best x => if l.count best < l.count x then x else best) d

/-- Maximum of a rational list, as Python max on a non-empty list. -/
def maxQ : List ℚ → Option ℚ
  | [] => none
  | x :: xs => some (xs.foldl (fun a b => if a < b then b else a) x)

/-- Minimum of a list of naturals, as Python min on a non-empty list. -/
def minNat : List Nat → Option Nat
  | [] => none
  | x :: xs => some (xs.foldl Nat.min x)

/-! ## Shared output model: one heading entry and one per-document result -/

/-- One outline entry: level string, cleaned text, normalized page. -/
structure OutlineEntry where
  level : String
  text : String
  page : Nat
deriving DecidableEq, Repr

/-- Per-document result: title plus ordered outline. -/
structure ExtractionResult where
  title : String
  outline : List OutlineEntry
deriving DecidableEq, Repr

/-- Ascending-by-page comparator realizing the stable Python sort with a
page key. -/
def pageLe (a b : OutlineEntry) : Bool := decide (a.page ≤ b.page)

/-- Descending comparator on rationals (stable placement). -/
def qGe (a b : ℚ) : Bool := decide (b ≤ a)

/-- Semantic-model oracle that rejects every string: stands for a run of
the sentence-embedding scorer in which no text clears the 0.25 margin. -/
def semFalse : String → Bool := fun _ => false

/-- Semantic-model oracle that accepts every string. -/
def semTrue : String → Bool := fun _ => true

namespace HP

/-- One extracted line of process_pdfs.py: text, zero-based page, average
font size, boldness, bounding box (left, top, right, bottom). -/
structure Block where
  text : String
  page : Nat
  font_size : ℚ
  is_bold : Bool
  bbox : ℚ × ℚ × ℚ × ℚ
deriving DecidableEq

/-- Document statistics of analyze_document_structure. -/
structure DocStructure where
  body_font_size : ℚ
  font_hierarchy : List ℚ
  total_blocks : Nat
  avg_font_size : ℚ
deriving DecidableEq

/-- Tally of analyze_document_structure: modal font size (first
encountered wins ties, as Counter.most_common), distinct sizes in
descending order, block count, average size (12 on an empty list). -/
def analyze_document_structure (blocks : List Block) : DocStructure :=
  let font_sizes := blocks.map Block.font_size
  { body_font_size := modeQ font_sizes
    font_hierarchy := pySort qGe (dedupFirst font_sizes)
    total_blocks := blocks.length
    avg_font_size :=
      if font_sizes.isEmpty then 12 else font_sizes.sum / (font_sizes.length : ℚ) }

/-- Parses a digit run followed by a dot: the shared head of every
numbered-heading regex of process_pdfs.py. -/
def numDot (cs : List Char) : Option (List Char) := (eatDigits1 cs).bind (eatChar '.')

/-- Regex of determine_heading_level for one numeric component and a
trailing dot, then whitespace. -/
def matchD1 (t : String) : Bool := ((numDot t.data).bind eatWs1).isSome

/-- Regex of determine_heading_level for two numeric components then
whitespace. -/
def matchD2 (t : String) : Bool :=
  ((numDot t.data).bind eatDigits1 |>.bind eatWs1).isSome

/-- Regex of determine_heading_level for three numeric components then
whitespace. -/
def matchD3 (t : String) : Bool :=
  ((numDot t.data).bind eatDigits1 |>.bind (eatChar '.')
    |>.bind eatDigits1 |>.bind eatWs1).isSome

/-- Regex of determine_heading_level for four numeric components then
whitespace. -/
def matchD4 (t : String) : Bool :=
  ((numDot t.data).bind eatDigits1 |>.bind (eatChar '.')
    |>.bind eatDigits1 |>.bind (eatChar '.')
    |>.bind eatDigits1 |>.bind eatWs1).isSome

/-- Consumes one uppercase letter. -/
def eatUpper : List Char → Option (List Char)
  | [] => none
  | c :: rest => if c.isUpper then some rest else none

/-- First strict numbered pattern of the classifier: one component,
trailing dot, whitespace, then a capital letter. -/
def matchU1 (t : String) : Bool := ((numDot t.data).bind eatWs1 |>.bind eatUpper).isSome

/-- Second strict numbered pattern: two components, whitespace, capital. -/
def matchU2 (t : String) : Bool :=
  ((numDot t.data).bind eatDigits1 |>.bind eatWs1 |>.bind eatUpper).isSome

/-- Third strict numbered pattern: three components, whitespace, capital. -/
def matchU3 (t : String) : Bool :=
  ((numDot t.data).bind eatDigits1 |>.bind (eatChar '.')
    |>.bind eatDigits1 |>.bind eatWs1 |>.bind eatUpper).isSome

/-- Method has_numbered_heading_pattern: any of the three strict
numbered-heading regexes matches the stripped text. -/
def has_numbered_heading_pattern (text : String) : Bool :=
  let t := pyStrip text
  matchU1 t || matchU2 t || matchU3 t

/-- Substrings whose presence disqualifies a span in the semantic
pre-filter. -/
def non_heading_indicators : List String :=
  ["@", "©", "$", "€", "£", "%", "(", ")", "[", "]",
   "\x7b", "\x7d", "www.", "http", ".com", ".org", ".edu"]

/-- Form-field markers rejected by the semantic pre-filter. -/
def form_indicators : List String :=
  ["name:", "address:", "phone:", "email:", "date:", "signature:"]

/-- Method is_true_heading_semantic: word-count band 2..12, indicator
blacklists, then the external embedding comparison (the oracle). -/
def is_true_heading_semantic (sem : String → Bool) (text : String) : Bool :=
  if wordCount text < 2 || wordCount text > 12 then false
  else if non_heading_indicators.any (fun k => isSubStr k (pyLower text)) then false
  else if form_indicators.any (fun k => isSubStr k (pyLower text)) then false
  else sem text

/-- Consumes a maximal non-empty word-character run. -/
def eatWord1 : List Char → Option (List Char)
  | [] => none
  | c :: rest => if isWordChar c then some (rest.dropWhile isWordChar) else none

/-- Email-shaped skip pattern of the classifier. -/
def matchEmailSkip (lt : String) : Bool :=
  match (eatWord1 lt.data).bind (eatChar '@') with
  | some (c :: _) => isWordChar c
  | _ => false

/-- Skip patterns of is_likely_heading, applied to the lowered stripped
text: bare numbers, four-digit years, percentages, money, page
references, email shapes, URLs and phone prefixes. -/
def skipHeadingPattern (lt : String) : Bool :=
  pyIsDigitStr lt
  || (decide (lt.length = 4) && lt.data.all Char.isDigit)
  || (match (eatDigits1 lt.data).bind (eatChar '%') with
      | some [] => true
      | _ => false)
  || (match eatChar '$' lt.data with
      | some (c :: _) => c.isDigit
      | _ => false)
  || (match (eatLiteral "page".data lt.data).bind eatWs1 with
      | some (c :: _) => c.isDigit
      | _ => false)
  || matchEmailSkip lt
  || "www.".data.isPrefixOf lt.data
  || "tel:".data.isPrefixOf lt.data

/-- Method is_likely_heading of process_pdfs.py: length filter, skip
patterns, then the additive score against the threshold 25. -/
def is_likely_heading (sem : String → Bool) (block : Block) (doc : DocStructure) : Bool :=
  let text := pyStrip block.text
  if text.length < 4 || text.length > 150 then false
  else if skipHeadingPattern (pyLower text) then false
  else
    let score : Int :=
      (if has_numbered_heading_pattern text then 20 else 0)
      + (if is_true_heading_semantic sem text then 15 else 0)
      + (if block.font_size / doc.body_font_size ≥ (13 : ℚ)/10 then 8
         else if block.font_size / doc.body_font_size ≥ (23 : ℚ)/20 then 4 else 0)
      + (if block.is_bold then 3 else 0)
      + (if 2 ≤ wordCount text ∧ wordCount text ≤ 6 then 5
         else if 7 ≤ wordCount text ∧ wordCount text ≤ 10 then 2 else 0)
      + (if pyIsUpper text = true ∧ wordCount text ≤ 4 then 2
         else if pyIsTitle text then 1 else 0)
    score ≥ 25

/-- Keywords excluding a span from title candidacy. -/
def skip_keywords : List String :=
  ["page", "figure", "table", "www", "http", "@", "tel:", "fax:"]

/-- Title-like keywords granting a bonus. -/
def title_keywords : List String :=
  ["application", "form", "overview", "foundation", "level",
   "extensions", "rfp", "request", "proposal", "pathways",
   "stem", "document", "report", "analysis", "study"]

/-- Additive title score of extract_title for one block. -/
def titleScore (block : Block) (doc : DocStructure) : Int :=
  let text := pyStrip block.text
  (if block.font_size / doc.body_font_size ≥ (14 : ℚ)/10 then 15
   else if block.font_size / doc.body_font_size ≥ (12 : ℚ)/10 then 8 else 0)
  + (if block.is_bold then 8 else 0)
  + (if block.bbox.2.1 < 150 then 8 else 0)
  + (if 4 ≤ wordCount text ∧ wordCount text ≤ 12 then 8
     else if 13 ≤ wordCount text ∧ wordCount text ≤ 20 then 4 else 0)
  + (if has_numbered_heading_pattern text then -10 else 0)
  + (if title_keywords.any (fun k => isSubStr k (pyLower text)) then 6 else 0)

/-- Title candidates of extract_title: stripped texts of first-two-page
blocks passing the length and keyword filters whose score clears 15,
paired with that score, in encounter order. -/
def titleCandidates (blocks : List Block) (doc : DocStructure) : List (String × Int) :=
  (blocks.filter (fun b => b.page ≤ 1)).filterMap (fun b =>
    let text := pyStrip b.text
    if text.length < 8 || text.length > 200 then none
    else if skip_keywords.any (fun k => isSubStr k (pyLower text)) then none
    else if titleScore b doc > 15 then some (text, titleScore b doc) else none)

/-- Descending-score comparator for the stable candidate sort. -/
def scoreGeTC (a b : String × Int) : Bool := decide (b.2 ≤ a.2)

/-- Hardcoded replacement string of the overview special case.  The
source loops over the top three candidates but returns this same literal
on both branches of the loop, so the loop is collapsed here. -/
def overviewTitle : String := "Overview  Foundation Level Extensions  "

/-- Hardcoded replacement string of the rfp special case. -/
def rfpTitle : String :=
  "RFP:Request for Proposal To Present a Proposal for Developing the Business Plan for the Ontario Digital Library  "

/-- Method extract_title of process_pdfs.py: best-scoring candidate
(first encountered wins ties) with three hardcoded special cases; the
empty string when no candidate clears the threshold. -/
def extract_title (blocks : List Block) (doc : DocStructure) : String :=
  match pySort scoreGeTC (titleCandidates blocks doc) with
  | [] => ""
  | (best, _) :: _ =>
    if isSubStr "ltc advance" (pyLower best) then pyRstrip best ++ "  "
    else if isSubStr "overview" (pyLower best) && isSubStr "foundation" (pyLower best) then
      overviewTitle
    else if isSubStr "rfp" (pyLower best) then rfpTitle
    else best

/-- Method determine_heading_level: dotted patterns of one to four
components first, then rank of the font size among the accepted headings.
The source indexes into a non-empty size list; the empty case is given
the fallthrough value 4 to stay total (never reached by the pipeline,
which only calls this with the block inside the heading list). -/
def determine_heading_level (block : Block) (doc : DocStructure)
    (all_headings : List Block) : Nat :=
  let text := pyStrip block.text
  if matchD1 text then 1
  else if matchD2 text then 2
  else if matchD3 text then 3
  else if matchD4 text then 4
  else
    match pySort qGe (dedupFirst (all_headings.map Block.font_size)) with
    | [] => 4
    | [_] => 1
    | u0 :: u1 :: rest =>
      if block.font_size ≥ u0 then 1
      else if block.font_size ≥ u1 then 2
      else
        match rest with
        | u2 :: _ => if block.font_size ≥ u2 then 3 else 4
        | [] => 4

/-- One block triggering the zero-based detection: lowered stripped text
contains the word page, has a digit, and its smallest embedded number is
zero. -/
def pageStyleHit (b : Block) : Bool :=
  let t := pyLower (pyStrip b.text)
  isSubStr "page" t && t.data.any Char.isDigit
    && (match minNat (digitRuns t.data) with
        | some 0 => true
        | _ => false)

/-- Method detect_page_numbering_style: 0 when some block is an explicit
zero-based page indicator, else 1. -/
def detect_page_numbering_style (blocks : List Block) : Nat :=
  if blocks.any pageStyleHit then 0 else 1

/-- Accepted heading blocks of the pipeline. -/
def headingBlocks (sem : String → Bool) (blocks : List Block) : List Block :=
  blocks.filter (fun b => is_likely_heading sem b (analyze_document_structure blocks))

/-- Level strings of the output contract. -/
def levelString (n : Nat) : String := "H" ++ toString n

/-- Outline entries before sorting, in encounter order, pages shifted by
the detected offset. -/
def buildOutline (sem : String → Bool) (blocks : List Block) : List OutlineEntry :=
  (headingBlocks sem blocks).map (fun b =>
    { level := levelString (determine_heading_level b
        (analyze_document_structure blocks) (headingBlocks sem blocks))
      text := pyStrip b.text
      page := b.page + detect_page_numbering_style blocks })

/-- Method extract_outline of process_pdfs.py on an extracted span
collection: empty guard, title, classification, page-sorted outline, and
the form special case that clears outlines of form-like documents. -/
def extract_outline (sem : String → Bool) (blocks : List Block) : ExtractionResult :=
  if blocks.isEmpty then { title := "", outline := [] }
  else
    let title := extract_title blocks (analyze_document_structure blocks)
    let sorted := pySort pageLe (buildOutline sem blocks)
    if title ≠ ""
        ∧ (isSubStr "form" (pyLower title) = true
            ∨ isSubStr "application" (pyLower title) = true)
        ∧ sorted.length > 5 then
      { title := title, outline := [] }
    else { title := title, outline := sorted }

/-- Document boundary of the pipeline: a failing extraction collaborator
is caught and surfaced as the empty placeholder result. -/
def extract_outline_run (sem : String → Bool) :
    Except String (List Block) → ExtractionResult
  | Except.error _ => { title := "", outline := [] }
  | Except.ok blocks => extract_outline sem blocks

end HP

/-! ## PDFOutlineExtractor of process_pdfs_local.py -/

/-- Consumes a maximal non-empty run of a character class; returns the
remainder. -/
def eatClass1 (p : Char → Bool) : List Char → Option (List Char)
  | [] => none
  | c :: rest => if p c then some (rest.dropWhile p) else none

/-- Greedy parse of further digits and dot-digit groups after an opening
digit, as the regex head of the first local heading pattern.  Returns the
consumed characters and the remainder; giving groups back cannot rescue a
failed match because the character after any shorter parse is a dot or a
digit, never the whitespace the pattern then requires. -/
def numCompsAux : List Char → List Char → List Char × List Char
  | [], acc => (acc.reverse, [])
  | c :: rest, acc =>
    if c.isDigit then numCompsAux rest (c :: acc)
    else if c = '.' then
      match rest with
      | d :: rest2 =>
        if d.isDigit then numCompsAux rest2 (d :: '.' :: acc)
        else (acc.reverse, '.' :: d :: rest2)
      | [] => (acc.reverse, ['.'])
    else (acc.reverse, c :: rest)

namespace LP

/-- One extracted span of process_pdfs_local.py with font metadata. -/
structure Line where
  text : String
  font_size : ℚ
  font_flags : Nat
  font_name : String
  bbox : ℚ × ℚ × ℚ × ℚ
deriving DecidableEq

/-- One page: index and spans in reading order. -/
structure Page where
  page_num : Nat
  lines : List Line
deriving DecidableEq

/-- First heading pattern: dotted numeric prefix with optional trailing
dot, whitespace, then the rest as the cleaned group. -/
def matchL1 (t : String) : Option (String × String) :=
  match t.data with
  | [] => none
  | c :: rest =>
    if c.isDigit then
      let pr := numCompsAux rest [c]
      let g1r :=
        match pr.2 with
        | '.' :: r' => (pr.1 ++ ['.'], r')
        | _ => (pr.1, pr.2)
      match eatWs1 g1r.2 with
      | some r2 =>
        if r2.isEmpty then none else some (String.mk g1r.1, String.mk r2)
      | none => none
    else none

/-- Character class of colon, dot or whitespace in the second local
heading pattern. -/
def isPunctWsL2 (c : Char) : Bool := c == ':' || c == '.' || c.isWhitespace

/-- Second heading pattern: a chapter, section or part word (case
insensitive), whitespace, digits, separator run, then the rest. -/
def matchL2 (t : String) : Option (String × String) :=
  let cs := t.data
  let tryWord (w : String) : Option (List Char × List Char) :=
    match eatLiteralCI w.data cs with
    | some r0 =>
      match eatWs1 r0 with
      | some r1 =>
        match eatDigits1 r1 with
        | some r2 => some (cs.take (cs.length - r2.length), r2)
        | none => none
      | none => none
    | none => none
  match tryWord "chapter" <|> tryWord "section" <|> tryWord "part" with
  | some (g1, r2) =>
    match eatClass1 isPunctWsL2 r2 with
    | some r3 => if r3.isEmpty then none else some (String.mk g1, String.mk r3)
    | none => none
  | none => none

/-- Roman-numeral letters, case insensitive. -/
def isRomanCI (c : Char) : Bool :=
  c.toLower == 'i' || c.toLower == 'v' || c.toLower == 'x'

/-- Third heading pattern: roman numerals, a dot, whitespace, the rest. -/
def matchL3 (t : String) : Option (String × String) :=
  let cs := t.data
  match eatClass1 isRomanCI cs with
  | some r0 =>
    match eatChar '.' r0 with
    | some r1 =>
      match eatWs1 r1 with
      | some r2 =>
        if r2.isEmpty then none
        else some (String.mk (cs.take (cs.length - r0.length)), String.mk r2)
      | none => none
    | none => none
  | none => none

/-- Fourth heading pattern: a single letter (case insensitive), a dot,
whitespace, the rest. -/
def matchL4 (t : String) : Option (String × String) :=
  match t.data with
  | c :: r0 =>
    if c.isAlpha then
      match eatChar '.' r0 with
      | some r1 =>
        match eatWs1 r1 with
        | some r2 => if r2.isEmpty then none else some (String.mk [c], String.mk r2)
        | none => none
      | none => none
    else none
  | [] => none

/-- Fifth heading pattern: digits, whitespace, then a letter (the case
class is neutralized by the ignore-case flag) and at least one more
character. -/
def matchL5 (t : String) : Option (String × String) :=
  let cs := t.data
  match eatDigits1 cs with
  | some r0 =>
    match eatWs1 r0 with
    | some r2 =>
      match r2 with
      | c :: rest =>
        if c.isAlpha ∧ rest ≠ [] then
          some (String.mk (cs.take (cs.length - r0.length)), String.mk r2)
        else none
      | [] => none
    | none => none
  | none => none

/-- The five heading patterns, in the order the source tries them. -/
def heading_patterns : List (String → Option (String × String)) :=
  [matchL1, matchL2, matchL3, matchL4, matchL5]

/-- Words whose presence marks a span as non-heading. -/
def anti_heading_words : List String :=
  ["page", "figure", "table", "image", "note", "see", "refer",
   "copyright", "reserved", "rights", "published", "printed"]

/-- Case-sensitive regex of the capital-then-lowercase check: an upper
first letter, a lower second one, anything, and a final character that is
not sentence-ending punctuation. -/
def titleishMatch (t : String) : Bool :=
  match t.data with
  | c0 :: c1 :: c2 :: rest =>
    c0.isUpper && c1.isLower &&
      (let last := lastCharD (c2 :: rest) ' '
       !(last == '.') && !(last == '!') && !(last == '?'))
  | _ => false

/-- Method is_likely_heading of process_pdfs_local.py. -/
def is_likely_heading (text : String) (font_size : ℚ) (font_flags : Nat)
    (body_text_size : ℚ) : Bool :=
  let t := pyStrip text
  if t.length < 3 then false
  else if anti_heading_words.any (fun w => isSubStr w (pyLower t)) then false
  else if heading_patterns.any (fun p => (p t).isSome) then true
  else if font_size > body_text_size * ((11 : ℚ)/10) then true
  else if (font_flags &&& 16) ≠ 0 ∧ t.length < 100 then true
  else if pyIsUpper t = true ∧ t.length < 50 then true
  else
    match t.data with
    | c :: _ => c.isUpper && (endsWithChar t ':' || titleishMatch t)
    | [] => false

/-- All font sizes of a document in reading order. -/
def fontSizesOf (pages : List Page) : List ℚ :=
  (pages.map (fun pg => pg.lines.map Line.font_size)).flatten

/-- Method analyze_font_sizes reduced to its size-to-level map: the up to
three distinct sizes strictly above the body size, in descending order,
bound to the levels H1, H2 and H3. -/
def size_levels (pages : List Page) : List (ℚ × String) :=
  let font_sizes := fontSizesOf pages
  if font_sizes.isEmpty then []
  else
    (((pySort qGe (dedupFirst font_sizes)).filter
        (fun s => modeQ font_sizes < s)).take 3).zip ["H1", "H2", "H3"]

/-- Pattern round of determine_heading_level: dot count of the first
matching prefix decides the level; a prefix with neither dots nor a bare
number nor a single capital falls through to the next pattern. -/
def levelFromPats : List (String → Option (String × String)) → String → Option String
  | [], _ => none
  | p :: ps, t =>
    match p t with
    | some (g1, _) =>
      if g1.data.contains '.' then
        let dc := g1.data.count '.'
        if dc = 1 then some "H1" else if dc = 2 then some "H2" else some "H3"
      else if pyIsDigitStr g1
          || (match g1.data with
              | [c] => c.isUpper
              | _ => false) then some "H1"
      else levelFromPats ps t
    | none => levelFromPats ps t

/-- Method determine_heading_level of process_pdfs_local.py: the font
size map wins, then pattern dot counts, then the default H1. -/
def determine_heading_level (text : String) (font_size : ℚ)
    (levels : List (ℚ × String)) : String :=
  match levels.lookup font_size with
  | some lvl => lvl
  | none => (levelFromPats heading_patterns text).getD "H1"

/-- Per-pattern round of clean_heading_text: the first match whose
stripped second group is non-empty provides the cleaned text. -/
def cleanFromPats : List (String → Option (String × String)) → String → Option String
  | [], _ => none
  | p :: ps, t =>
    match p t with
    | some (_, g2) =>
      let c := pyStrip g2
      if c ≠ "" then some c else cleanFromPats ps t
    | none => cleanFromPats ps t

/-- Fallback substitution of clean_heading_text: removes a leading
chapter, section or part word with its number and separators. -/
def stripChapterNum (t : String) : String :=
  let cs := t.data
  let tryW (w : String) : Option (List Char) :=
    match eatLiteralCI w.data cs with
    | some r0 =>
      match eatWs1 r0 with
      | some r1 =>
        match eatDigits1 r1 with
        | some r2 => some (r2.dropWhile isPunctWsL2)
        | none => none
      | none => none
    | none => none
  match tryW "chapter" <|> tryW "section" <|> tryW "part" with
  | some r => String.mk r
  | none => t

/-- Method clean_heading_text of process_pdfs_local.py. -/
def clean_heading_text (t : String) : String :=
  match cleanFromPats heading_patterns t with
  | some c => c
  | none => pyStrip (stripChapterNum t)

/-- Title keywords of the local variant; each present keyword adds three
points. -/
def title_keywords : List String :=
  ["title", "document", "report", "manual", "guide", "handbook",
   "specification", "overview", "analysis", "study", "research"]

/-- Method score_title_candidate. -/
def score_title_candidate (text : String) : Nat :=
  3 * (title_keywords.filter (fun k => isSubStr k (pyLower text))).length
  + (if 10 ≤ text.length ∧ text.length ≤ 100 then 2 else 0)
  + (if (match text.data with
         | c :: _ => c.isDigit
         | [] => false) then 0 else 1)
  + (if endsWithChar text '.' || endsWithChar text '!'
        || endsWithChar text '?' || endsWithChar text ':' then 0 else 1)

/-- One title candidate of extract_title. -/
structure TitleCand where
  text : String
  page : Nat
  font_size : ℚ
  score : Nat
deriving DecidableEq

/-- Descending-score comparator for the stable candidate sort. -/
def scoreGeLP (a b : TitleCand) : Bool := decide (b.score ≤ a.score)

/-- Candidates of one page: lines whose size equals the page maximum over
non-blank lines, within the length band and free of anti-heading words. -/
def pageTitleCands (pg : Page) : List TitleCand :=
  let fs := pg.lines.filterMap
    (fun ln => if pyStrip ln.text ≠ "" then some ln.font_size else none)
  match maxQ fs with
  | none => []
  | some m =>
    pg.lines.filterMap (fun ln =>
      let t := pyStrip ln.text
      if ln.font_size = m ∧ t.length > 5 ∧ t.length < 200
          ∧ ¬ (anti_heading_words.any (fun w => isSubStr w (pyLower t)) = true) then
        some { text := t, page := pg.page_num, font_size := ln.font_size,
               score := score_title_candidate t }
      else none)

/-- Lines of the first two pages, for the fallback scan. -/
def titleFallbackLines (pages : List Page) : List Line :=
  ((pages.take 2).map Page.lines).flatten

/-- Fallback of extract_title: first long non-numeric line, else the
fixed untitled placeholder. -/
def titleFallback : List Line → String
  | [] => "Untitled Document"
  | ln :: rest =>
    let t := pyStrip ln.text
    if t.length > 10 ∧ ¬ (pyIsDigitStr t = true) then t else titleFallback rest

/-- Method extract_title of process_pdfs_local.py: best-scoring candidate
of the first three pages, else the fallback scan. -/
def extract_title (pages : List Page) : String :=
  match pySort scoreGeLP ((pages.take 3).map pageTitleCands).flatten with
  | c :: _ => c.text
  | [] => titleFallback (titleFallbackLines pages)

/-- Page-and-line pairs in reading order, as the nested loop of
extract_outline. -/
def linePairs (pages : List Page) : List (Nat × Line) :=
  (pages.map (fun pg => pg.lines.map (fun ln => (pg.page_num, ln)))).flatten

/-- Heading loop of extract_outline: classify, clean, drop duplicates by
the seen set, and record level and page. -/
def buildOutline (body : ℚ) (levels : List (ℚ × String)) :
    List (Nat × Line) → List String → List OutlineEntry
  | [], _ => []
  | (pg, ln) :: rest, seen =>
    let t := pyStrip ln.text
    if is_likely_heading t ln.font_size ln.font_flags body then
      let cleaned := clean_heading_text t
      if cleaned ≠ "" ∧ cleaned.length > 2 ∧ ¬ cleaned ∈ seen then
        { level := determine_heading_level t ln.font_size levels
          text := cleaned
          page := pg } :: buildOutline body levels rest (cleaned :: seen)
      else buildOutline body levels rest seen
    else buildOutline body levels rest seen

/-- Pre-sort outline of extract_outline: the heading loop run over all
lines with the body size defaulting to twelve on a line-free document. -/
def builtOutline (pages : List Page) : List OutlineEntry :=
  let font_sizes := fontSizesOf pages
  buildOutline (if font_sizes.isEmpty then 12 else modeQ font_sizes)
    (size_levels pages) (linePairs pages) []

/-- Method extract_outline of process_pdfs_local.py on extracted pages:
empty guard, statistics, title, deduplicated headings, page sort and the
cap of fifty entries. -/
def extract_outline (pages : List Page) : ExtractionResult :=
  if pages.isEmpty then { title := "Untitled Document", outline := [] }
  else
    let sorted := pySort pageLe (builtOutline pages)
    { title := extract_title pages
      outline := if sorted.length > 50 then sorted.take 50 else sorted }

/-- Document boundary of the local pipeline: a failing extraction is
caught and surfaced as the fixed error placeholder. -/
def extract_outline_run : Except String (List Page) → ExtractionResult
  | Except.error _ => { title := "Error Processing Document", outline := [] }
  | Except.ok pages => extract_outline pages

end LP

/-! ## Definitions following the words of the specification.  These two
are stated from the specification text, not from the source, and are used
only to state refutations of claims against the embedded code. -/

/-- Stated from the specification (section 4.4 rule 1 and the glossary):
a dotted numeric prefix is a digit run, further dot-digit groups, an
optional trailing dot, then whitespace; the level is one plus the number
of separating dots, capped at four. -/
def specDottedLevel (s : String) : Option Nat :=
  match s.data with
  | [] => none
  | c :: rest =>
    if c.isDigit then
      let pr := numCompsAux rest [c]
      let r :=
        match pr.2 with
        | '.' :: r' => r'
        | _ => pr.2
      if (eatWs1 r).isSome then some (Nat.min (pr.1.count '.') 3 + 1) else none
    else none

/-- Stated from the specification (section 4.5): a short document has
every heading page reduced by one, floored at zero (natural subtraction). -/
def specShortNormalize (p : Nat) : Nat := p - 1

/-- Stated from the specification (sections 3 and 4.1): a document is
short when its maximum observed page index is below the threshold two. -/
def specIsShort (blocks : List HP.Block) : Bool :=
  decide ((blocks.map HP.Block.page).foldr Nat.max 0 < 2)

/-! ## Concrete documents used by refutations and witnesses -/

/-- A numbered heading span: accepted by the high-precision classifier
(pattern bonus 20, word band 5, title case 1). -/
def hpHeading : HP.Block :=
  { text := "1. Introduction", page := 0, font_size := 10, is_bold := false,
    bbox := (0, 200, 0, 0) }

/-- A body span at the modal size. -/
def hpBody : HP.Block :=
  { text := "plain body words here", page := 0, font_size := 10,
    is_bold := false, bbox := (0, 300, 0, 0) }

/-- A document holding the same heading twice. -/
def dupBlocks : List HP.Block := [hpHeading, hpHeading]

/-- A single-heading one-page document with no explicit page marker. -/
def shortDocBlocks : List HP.Block := [hpHeading]

/-- A pathological document with one hundred and one identical accepted
headings. -/
def capBlocks : List HP.Block := List.replicate 101 hpHeading

/-- A heading span with a five-component dotted numeric prefix, large and
bold so that the classifier accepts it under the accepting oracle. -/
def deepBlock : HP.Block :=
  { text := "1.1.1.1.1 Introduction", page := 0, font_size := 20,
    is_bold := true, bbox := (0, 0, 0, 0) }

/-- The five-component document: the deep heading over body text. -/
def deepBlocks : List HP.Block := [deepBlock, hpBody, hpBody, hpBody]

/-- A large bold top-of-page span containing the rfp keyword. -/
def rfpBlock : HP.Block :=
  { text := "RFP Overview Document Analysis", page := 0, font_size := 20,
    is_bold := true, bbox := (0, 50, 0, 0) }

/-- The document whose best title candidate triggers the hardcoded rfp
replacement. -/
def rfpBlocks : List HP.Block := [rfpBlock, hpBody, hpBody, hpBody]

/-- A large bold top-of-page span containing the form and application
keywords. -/
def formTitleBlock : HP.Block :=
  { text := "Application Form Overview Document", page := 0, font_size := 20,
    is_bold := true, bbox := (0, 50, 0, 0) }

/-- A numbered heading span of the form document. -/
def formHeading (s : String) : HP.Block :=
  { text := s, page := 0, font_size := 10, is_bold := false, bbox := (0, 200, 0, 0) }

/-- A form-titled document with six accepted headings. -/
def formBlocks : List HP.Block :=
  [formTitleBlock, formHeading "1. Introduction", formHeading "2. Background",
   formHeading "3. Methods", formHeading "4. Results",
   formHeading "5. Discussion", formHeading "6. Conclusion"]

/-- An arbitrary statistics record for witnesses of the level rule, which
holds independently of the statistics. -/
def exDS : HP.DocStructure :=
  { body_font_size := 10, font_hierarchy := [10], total_blocks := 1,
    avg_font_size := 10 }

/-! ## Lemmas on the stable insertion sort -/

theorem pyInsert_perm (le : α → α → Bool) (x : α) :
    ∀ l : List α, List.Perm (pyInsert le x l) (x :: l) := by
  intro l
  induction l with
  | nil => simp [pyInsert]
  | cons y ys ih =>
    simp only [pyInsert]
    split
    · exact List.Perm.refl _
    · exact (List.Perm.cons y ih).trans (List.Perm.swap x y ys)

theorem pySort_perm (le : α → α → Bool) :
    ∀ l : List α, List.Perm (pySort le l) l := by
  intro l
  induction l with
  | nil => exact List.Perm.refl _
  | cons x xs ih =>
    exact (pyInsert_perm le x (pySort le xs)).trans (List.Perm.cons x ih)

theorem length_pySort (le : α → α → Bool) (l : List α) :
    (pySort le l).length = l.length :=
  (pySort_perm le l).length_eq

theorem mem_pySort (le : α → α → Bool) {l : List α} {a : α} :
    a ∈ pySort le l ↔ a ∈ l :=
  (pySort_perm le l).mem_iff

theorem pyInsert_pairwise (le : α → α → Bool)
    (htot : ∀ a b, le a b = false → le b a = true)
    (htrans : ∀ a b c, le a b = true → le b c = true → le a c = true)
    (x : α) : ∀ l : List α, List.Pairwise (fun a b => le a b = true) l →
      List.Pairwise (fun a b => le a b = true) (pyInsert le x l) := by
  intro l
  induction l with
  | nil => intro _; simp [pyInsert]
  | cons y ys ih =>
    intro hp
    rcases List.pairwise_cons.mp hp with ⟨hy, hys⟩
    simp only [pyInsert]
    split
    · rename_i hxy
      refine List.pairwise_cons.mpr ⟨?_, hp⟩
      intro z hz
      rcases List.mem_cons.mp hz with rfl | hz
      · exact hxy
      · exact htrans x y z hxy (hy z hz)
    · rename_i hxy
      refine List.pairwise_cons.mpr ⟨?_, ih hys⟩
      intro z hz
      rcases List.mem_cons.mp ((pyInsert_perm le x ys).mem_iff.mp hz) with h | hz
      · cases h
        exact htot x y (Bool.eq_false_iff.mpr hxy)
      · exact hy z hz

theorem pySort_pairwise (le : α → α → Bool)
    (htot : ∀ a b, le a b = false → le b a = true)
    (htrans : ∀ a b c, le a b = true → le b c = true → le a c = true)
    (l : List α) :
    List.Pairwise (fun a b => le a b = true) (pySort le l) := by
  induction l with
  | nil => simp [pySort]
  | cons x xs ih => exact pyInsert_pairwise le htot htrans x _ ih

theorem pageLe_total (a b : OutlineEntry) :
    pageLe a b = false → pageLe b a = true := by
  simp only [pageLe, decide_eq_false_iff_not, decide_eq_true_eq]
  omega

theorem pageLe_trans (a b c : OutlineEntry) :
    pageLe a b = true → pageLe b c = true → pageLe a c = true := by
  simp only [pageLe, decide_eq_true_eq]
  omega

/-- Stability of the insertion step for the page key: inserting does not
change the sublist of entries with any given page. -/
theorem filter_pyInsert_page (x : OutlineEntry) (p : Nat) :
    ∀ l : List OutlineEntry,
      (pyInsert pageLe x l).filter (fun e => e.page == p)
        = (x :: l).filter (fun e => e.page == p) := by
  intro l
  induction l with
  | nil => rfl
  | cons y ys ih =>
    simp only [pyInsert]
    split
    · rfl
    · rename_i hxy
      have hlt : y.page < x.page := by
        have := Bool.eq_false_iff.mpr hxy
        simp only [pageLe, decide_eq_false_iff_not, decide_eq_true_eq] at this
        omega
      by_cases hx : x.page = p
      · have hy : ¬ y.page = p := by omega
        simp only [List.filter_cons, hx, hy, beq_iff_eq, if_pos, if_neg,
          decide_eq_true_eq, ih]
        simp [List.filter_cons, hx, hy]
      · by_cases hy : y.page = p
        · simp only [List.filter_cons, beq_iff_eq, hx, hy, ih]
          simp [List.filter_cons, hx, hy]
        · simp only [List.filter_cons, beq_iff_eq, hx, hy, ih]
          simp [List.filter_cons, hx, hy]

/-- Stability of the page sort: sorting preserves the sublist of entries
with any given page, hence ties stay in encounter order. -/
theorem filter_pySort_page (p : Nat) :
    ∀ l : List OutlineEntry,
      (pySort pageLe l).filter (fun e => e.page == p)
        = l.filter (fun e => e.page == p) := by
  intro l
  induction l with
  | nil => rfl
  | cons x xs ih =>
    calc (pySort pageLe (x :: xs)).filter (fun e => e.page == p)
        = (x :: pySort pageLe xs).filter (fun e => e.page == p) :=
          filter_pyInsert_page x p _
      _ = (x :: xs).filter (fun e => e.page == p) := by
          simp only [List.filter_cons, ih]

/-- A filtered prefix of a list is a prefix of the filtered list. -/
theorem filter_take_eq_take_filter (q : α → Bool) :
    ∀ (l : List α) (n : Nat), ∃ k, (l.take n).filter q = (l.filter q).take k := by
  intro l
  induction l with
  | nil => intro n; exact ⟨0, by simp⟩
  | cons x xs ih =>
    intro n
    cases n with
    | zero => exact ⟨0, by simp⟩
    | succ m =>
      rcases ih m with ⟨k, hk⟩
      by_cases hx : q x = true
      · exact ⟨k + 1, by simp [List.filter_cons, hx, hk]⟩
      · exact ⟨k, by simp [List.filter_cons, hx, hk]⟩

/-! ## Deduplication invariant of the local heading loop -/

theorem buildOutline_texts_disjoint (body : ℚ) (levels : List (ℚ × String)) :
    ∀ (prs : List (Nat × LP.Line)) (seen : List String),
      ((LP.buildOutline body levels prs seen).map OutlineEntry.text).Nodup
      ∧ ∀ t ∈ (LP.buildOutline body levels prs seen).map OutlineEntry.text,
          t ∉ seen := by
  intro prs
  induction prs with
  | nil =>
    intro seen
    constructor
    · simp [LP.buildOutline]
    · simp [LP.buildOutline]
  | cons pr rest ih =>
    intro seen
    obtain ⟨pg, ln⟩ := pr
    simp only [LP.buildOutline]
    split
    · split
      · rename_i hcond
        rcases ih (LP.clean_heading_text (pyStrip ln.text) :: seen) with ⟨hnd, hdisj⟩
        constructor
        · simp only [List.map_cons]
          refine List.nodup_cons.mpr ⟨?_, hnd⟩
          intro hmem
          exact (hdisj _ hmem) (List.mem_cons_self _ _)
        · intro t ht
          simp only [List.map_cons, List.mem_cons] at ht
          rcases ht with h | ht'
          · subst h
            exact hcond.2.2
          · intro hseen
            exact (hdisj _ ht') (List.mem_cons_of_mem _ hseen)
      · exact ih seen
    · exact ih seen

/-! ## Head shapes of the parser combinators -/

theorem digit_not_ws {c : Char} (h : c.isDigit = true) : c.isWhitespace = false := by
  simp only [Char.isDigit, Bool.and_eq_true, decide_eq_true_eq] at h
  apply Bool.eq_false_iff.mpr
  intro hw
  simp only [Char.isWhitespace, Bool.or_eq_true, decide_eq_true_eq] at hw
  rcases hw with ((h1 | h1) | h1) | h1 <;> (subst h1; exact absurd h (by decide))

theorem eatDigits1_some {l r : List Char} (h : eatDigits1 l = some r) :
    ∃ c cs, l = c :: cs ∧ c.isDigit = true := by
  cases l with
  | nil => simp [eatDigits1] at h
  | cons c cs =>
    by_cases hc : c.isDigit = true
    · exact ⟨c, cs, rfl, hc⟩
    · rw [eatDigits1, if_neg] at h
      · cases h
      · simp [hc]

theorem eatChar_some {ch : Char} {l r : List Char} (h : eatChar ch l = some r) :
    l = ch :: r := by
  cases l with
  | nil => simp [eatChar] at h
  | cons c cs =>
    by_cases hc : c = ch
    · subst hc
      simp only [eatChar, beq_self_eq_true, if_pos] at h
      rw [Option.some_inj] at h
      rw [h]
    · rw [eatChar, if_neg] at h
      · cases h
      · simp [hc]

theorem eatWs1_digit_head {c : Char} {cs : List Char} (h : c.isDigit = true) :
    eatWs1 (c :: cs) = none := by
  rw [eatWs1, if_neg]
  simp [digit_not_ws h]

theorem eatWs1_dot_head (cs : List Char) : eatWs1 ('.' :: cs) = none := rfl

/-! ## Disjointness of the four numbered-level patterns of the
high-precision level assigner -/

theorem matchD1_false_of_digit {t : String} {r r2 : List Char}
    (hnd : HP.numDot t.data = some r) (hd : eatDigits1 r = some r2) :
    HP.matchD1 t = false := by
  rcases eatDigits1_some hd with ⟨c, cs, hre, hc⟩
  subst hre
  simp [HP.matchD1, hnd, eatWs1_digit_head hc]

theorem matchD2_false_of_dot {t : String} {r r2 r3 : List Char}
    (hnd : HP.numDot t.data = some r) (hd : eatDigits1 r = some r2)
    (hdot : eatChar '.' r2 = some r3) :
    HP.matchD2 t = false := by
  have h2 := eatChar_some hdot
  subst h2
  simp [HP.matchD2, hnd, hd, eatWs1_dot_head]

theorem matchD3_false_of_dot {t : String} {r r2 r3 r4 r5 : List Char}
    (hnd : HP.numDot t.data = some r) (hd : eatDigits1 r = some r2)
    (hdot : eatChar '.' r2 = some r3) (hd2 : eatDigits1 r3 = some r4)
    (hdot2 : eatChar '.' r4 = some r5) :
    HP.matchD3 t = false := by
  have h2 := eatChar_some hdot2
  subst h2
  simp [HP.matchD3, hnd, hd, hdot, hd2, eatWs1_dot_head]

/-- C2 (amended): the high-precision level assigner checks its four
dotted patterns before any font-size rule, so whenever one of them
matches the stripped text the level is the component count, whatever the
statistics and whatever the other accepted headings; prefixes of five or
more components match none of the four patterns and fall through to the
font-size rule (the counterexample exhibits this on the claim as
stated). -/
theorem c2_numbering_levels_amended (b : HP.Block) (ds : HP.DocStructure)
    (hs : List HP.Block) :
    (HP.matchD1 (pyStrip b.text) = true → HP.determine_heading_level b ds hs = 1)
    ∧ (HP.matchD2 (pyStrip b.text) = true → HP.determine_heading_level b ds hs = 2)
    ∧ (HP.matchD3 (pyStrip b.text) = true → HP.determine_heading_level b ds hs = 3)
    ∧ (HP.matchD4 (pyStrip b.text) = true → HP.determine_heading_level b ds hs = 4) := by
  refine ⟨?_, ?_, ?_, ?_⟩ <;> intro h
  · simp [HP.determine_heading_level, h]
  · have h' := h
    rw [HP.matchD2] at h'
    cases hnd : HP.numDot (pyStrip b.text).data with
    | none => rw [hnd] at h'; simp at h'
    | some r =>
      rw [hnd] at h'
      cases hed : eatDigits1 r with
      | none => rw [Option.some_bind, hed] at h'; simp at h'
      | some r2 =>
        have hD1 := matchD1_false_of_digit hnd hed
        simp [HP.determine_heading_level, hD1, h]
  · have h' := h
    rw [HP.matchD3] at h'
    cases hnd : HP.numDot (pyStrip b.text).data with
    | none => rw [hnd] at h'; simp at h'
    | some r =>
      rw [hnd] at h'
      cases hed : eatDigits1 r with
      | none => rw [Option.some_bind, hed] at h'; simp at h'
      | some r2 =>
        rw [Option.some_bind, hed, Option.some_bind] at h'
        cases hdot : eatChar '.' r2 with
        | none => rw [hdot] at h'; simp at h'
        | some r3 =>
          have hD1 := matchD1_false_of_digit hnd hed
          have hD2 := matchD2_false_of_dot hnd hed hdot
          simp [HP.determine_heading_level, hD1, hD2, h]
  · have h' := h
    rw [HP.matchD4] at h'
    cases hnd : HP.numDot (pyStrip b.text).data with
    | none => rw [hnd] at h'; simp at h'
    | some r =>
      rw [hnd] at h'
      cases hed : eatDigits1 r with
      | none => rw [Option.some_bind, hed] at h'; simp at h'
      | some r2 =>
        rw [Option.some_bind, hed, Option.some_bind] at h'
        cases hdot : eatChar '.' r2 with
        | none => rw [hdot] at h'; simp at h'
        | some r3 =>
          rw [hdot, Option.some_bind] at h'
          cases hed2 : eatDigits1 r3 with
          | none => rw [hed2] at h'; simp at h'
          | some r4 =>
            rw [hed2, Option.some_bind] at h'
            cases hdot2 : eatChar '.' r4 with
            | none => rw [hdot2] at h'; simp at h'
            | some r5 =>
              have hD1 := matchD1_false_of_digit hnd hed
              have hD2 := matchD2_false_of_dot hnd hed hdot
              have hD3 := matchD3_false_of_dot hnd hed hdot hed2 hdot2
              simp [HP.determine_heading_level, hD1, hD2, hD3, h]

/-- C2 (counterexample): the span with the five-component prefix is an
accepted heading whose text begins with a dotted numeric prefix of
specification level four, yet the code assigns level one through the
font-size fallback, because no dotted pattern of the code covers five or
more components. -/
theorem c2_deep_prefix_counterexample :
    specDottedLevel "1.1.1.1.1 Introduction" = some 4
    ∧ HP.is_likely_heading semTrue deepBlock
        (HP.analyze_document_structure deepBlocks) = true
    ∧ HP.determine_heading_level deepBlock
        (HP.analyze_document_structure deepBlocks)
        (HP.headingBlocks semTrue deepBlocks) = 1
    ∧ (1 : Nat) ≠ 4 :=
  ⟨by decide, by with_unfolding_all decide, by with_unfolding_all decide, by decide⟩

/-- C2 (witness): the four pattern branches of the amended rule fire on
concrete one- to four-component headings. -/
theorem c2_numbering_levels_amended_witness :
    HP.determine_heading_level (formHeading "1. Overview") exDS [] = 1
    ∧ HP.determine_heading_level (formHeading "1.2 Overview") exDS [] = 2
    ∧ HP.determine_heading_level (formHeading "1.2.3 Overview") exDS [] = 3
    ∧ HP.determine_heading_level (formHeading "1.2.3.4 Overview") exDS [] = 4 :=
  ⟨(c2_numbering_levels_amended (formHeading "1. Overview") exDS []).1 (by decide),
   (c2_numbering_levels_amended (formHeading "1.2 Overview") exDS []).2.1 (by decide),
   (c2_numbering_levels_amended (formHeading "1.2.3 Overview") exDS []).2.2.1 (by decide),
   (c2_numbering_levels_amended (formHeading "1.2.3.4 Overview") exDS []).2.2.2 (by decide)⟩

/-- C1 (counterexample): the high-precision pipeline performs no
deduplication, so a document carrying the same accepted heading twice
yields two outline entries with equal text. -/
theorem c1_dup_counterexample :
    (HP.extract_outline semFalse dupBlocks).outline.map OutlineEntry.text
      = ["1. Introduction", "1. Introduction"]
    ∧ ¬ ((HP.extract_outline semFalse dupBlocks).outline.map
          OutlineEntry.text).Nodup := by
  constructor
  · with_unfolding_all decide
  · with_unfolding_all decide

/-- C1 (amended): only the local pipeline deduplicates; its outline never
holds two entries with equal text, for any input pages, because the seen
set admits each cleaned text once and sorting and truncation preserve
distinctness. -/
theorem c1_local_dedup_amended (pages : List LP.Page) :
    ((LP.extract_outline pages).outline.map OutlineEntry.text).Nodup := by
  by_cases hp : pages.isEmpty
  · simp [LP.extract_outline, hp]
  · have hnd := (buildOutline_texts_disjoint
      (if (LP.fontSizesOf pages).isEmpty then 12 else modeQ (LP.fontSizesOf pages))
      (LP.size_levels pages) (LP.linePairs pages) []).1
    have hnd' : ((LP.builtOutline pages).map OutlineEntry.text).Nodup := by
      simpa [LP.builtOutline] using hnd
    have hperm :
        List.Perm ((pySort pageLe (LP.builtOutline pages)).map OutlineEntry.text)
          ((LP.builtOutline pages).map OutlineEntry.text) :=
      (pySort_perm pageLe (LP.builtOutline pages)).map OutlineEntry.text
    have hsnd := hperm.nodup_iff.mpr hnd'
    simp only [LP.extract_outline, hp, if_false, Bool.false_eq_true]
    split
    · rw [List.map_take]
      exact hsnd.sublist (List.take_sublist _ _)
    · exact hsnd

/-- C3 (counterexample): a one-page document (short by the specification
threshold) whose only span sits on source page zero is reported on page
one, not on the specification value zero, because the code adds a
detected offset and never subtracts one. -/
theorem c3_short_doc_counterexample :
    specIsShort shortDocBlocks = true
    ∧ shortDocBlocks.map HP.Block.page = [0]
    ∧ (HP.extract_outline semFalse shortDocBlocks).outline.map OutlineEntry.page
        = [1]
    ∧ specShortNormalize 0 = 0
    ∧ (1 : Nat) ≠ 0 :=
  ⟨by decide, by decide, by with_unfolding_all decide, by decide, by decide⟩

/-- C3 (amended): every reported page of the high-precision pipeline is
the source page of its span plus the detected offset of
detect_page_numbering_style, which is zero exactly when some span is an
explicit zero-based page marker and one otherwise; no short-document
reduction exists. -/
theorem c3_page_offset_amended (sem : String → Bool) (blocks : List HP.Block)
    (e : OutlineEntry) (he : e ∈ (HP.extract_outline sem blocks).outline) :
    ∃ b ∈ blocks, e.page = b.page + HP.detect_page_numbering_style blocks := by
  by_cases hb : blocks.isEmpty
  · simp [HP.extract_outline, hb] at he
  · simp only [HP.extract_outline, hb, if_false, Bool.false_eq_true] at he
    split at he
    · simp at he
    · simp only at he
      have hmem := (mem_pySort pageLe).mp he
      rcases List.mem_map.mp hmem with ⟨b, hbm, rfl⟩
      refine ⟨b, ?_, rfl⟩
      have hfil : b ∈ blocks.filter
          (fun x => HP.is_likely_heading sem x (HP.analyze_document_structure blocks)) := by
        simpa [HP.headingBlocks] using hbm
      exact List.mem_of_mem_filter hfil

/-- C3 (witness): the amended page rule applied to the one-page
document. -/
theorem c3_page_offset_amended_witness :
    (⟨"H1", "1. Introduction", 1⟩ : OutlineEntry)
        ∈ (HP.extract_outline semFalse shortDocBlocks).outline
    ∧ ∃ b ∈ shortDocBlocks,
        (⟨"H1", "1. Introduction", 1⟩ : OutlineEntry).page
          = b.page + HP.detect_page_numbering_style shortDocBlocks :=
  ⟨by with_unfolding_all decide,
   c3_page_offset_amended semFalse shortDocBlocks _ (by with_unfolding_all decide)⟩

/-- C4 (counterexample): the local pipeline answers the empty span
collection with the fixed untitled placeholder, not with the empty
title. -/
theorem c4_local_empty_counterexample :
    LP.extract_outline ([] : List LP.Page)
      = { title := "Untitled Document", outline := [] }
    ∧ ("Untitled Document" : String) ≠ "" :=
  ⟨rfl, by decide⟩

/-- C4 (amended): on the empty span collection the high-precision
pipeline returns the empty title and empty outline for every oracle,
while the local pipeline returns the untitled placeholder with an empty
outline; neither raises. -/
theorem c4_empty_result_amended :
    (∀ sem : String → Bool, HP.extract_outline sem ([] : List HP.Block)
        = { title := "", outline := [] })
    ∧ LP.extract_outline ([] : List LP.Page)
        = { title := "Untitled Document", outline := [] } :=
  ⟨fun _ => rfl, rfl⟩

/-- Sortedness of the page sort, as a chain of adjacent comparisons. -/
theorem sorted_chain_page (l : List OutlineEntry) :
    List.Chain' (fun a b => a.page ≤ b.page) (pySort pageLe l) := by
  have hp := pySort_pairwise pageLe pageLe_total pageLe_trans l
  have hp' : List.Pairwise (fun a b : OutlineEntry => a.page ≤ b.page)
      (pySort pageLe l) :=
    hp.imp (fun h => by simpa [pageLe] using h)
  exact hp'.chain'

/-- Sortedness of a truncated page sort. -/
theorem sorted_take_chain_page (n : Nat) (l : List OutlineEntry) :
    List.Chain' (fun a b => a.page ≤ b.page) ((pySort pageLe l).take n) := by
  have hp := pySort_pairwise pageLe pageLe_total pageLe_trans l
  have hp' : List.Pairwise (fun a b : OutlineEntry => a.page ≤ b.page)
      (pySort pageLe l) :=
    hp.imp (fun h => by simpa [pageLe] using h)
  exact (List.Pairwise.sublist (List.take_sublist _ _) hp').chain'

/-- C5: both pipelines return outlines sorted non-decreasingly by page,
and each page class of the output is a prefix of the page class of the
pre-sort outline, so ties keep their encounter order (the high-precision
form special case and the local cap only ever shorten the output). -/
theorem c5_sort_invariant (sem : String → Bool) (blocks : List HP.Block)
    (pages : List LP.Page) :
    List.Chain' (fun a b => a.page ≤ b.page) (HP.extract_outline sem blocks).outline
    ∧ List.Chain' (fun a b => a.page ≤ b.page) (LP.extract_outline pages).outline
    ∧ (∀ p : Nat, ∃ k, (HP.extract_outline sem blocks).outline.filter
          (fun e => e.page == p)
        = ((HP.buildOutline sem blocks).filter (fun e => e.page == p)).take k)
    ∧ (∀ p : Nat, ∃ k, (LP.extract_outline pages).outline.filter
          (fun e => e.page == p)
        = ((LP.builtOutline pages).filter (fun e => e.page == p)).take k) := by
  refine ⟨?_, ?_, ?_, ?_⟩
  · by_cases hb : blocks.isEmpty
    · simp [HP.extract_outline, hb]
    · simp only [HP.extract_outline, hb, if_false, Bool.false_eq_true]
      split
      · simp
      · exact sorted_chain_page _
  · by_cases hp : pages.isEmpty
    · simp [LP.extract_outline, hp]
    · simp only [LP.extract_outline, hp, if_false, Bool.false_eq_true]
      split
      · exact sorted_take_chain_page _ _
      · exact sorted_chain_page _
  · intro p
    by_cases hb : blocks.isEmpty
    · refine ⟨0, ?_⟩
      simp [HP.extract_outline, hb]
    · simp only [HP.extract_outline, hb, if_false, Bool.false_eq_true]
      split
      · exact ⟨0, by simp⟩
      · refine ⟨((HP.buildOutline sem blocks).filter (fun e => e.page == p)).length, ?_⟩
        simp only
        rw [filter_pySort_page, List.take_length]
  · intro p
    by_cases hp : pages.isEmpty
    · refine ⟨0, ?_⟩
      simp [LP.extract_outline, hp]
    · simp only [LP.extract_outline, hp, if_false, Bool.false_eq_true]
      split
      · rcases filter_take_eq_take_filter (fun e => e.page == p)
          (pySort pageLe (LP.builtOutline pages)) 50 with ⟨k, hk⟩
        refine ⟨k, ?_⟩
        rw [hk, filter_pySort_page]
      · refine ⟨((LP.builtOutline pages).filter (fun e => e.page == p)).length, ?_⟩
        rw [filter_pySort_page, List.take_length]

set_option maxRecDepth 40000 in
/-- C6 (counterexample): the high-precision pipeline applies no cap, so a
document with one hundred and one accepted headings yields them all,
exceeding every value of the claimed fixed cap range of fifty to one
hundred. -/
theorem c6_no_cap_counterexample :
    (HP.extract_outline semFalse capBlocks).outline.length = 101
    ∧ ¬ ((101 : Nat) ≤ 100) ∧ ¬ ((101 : Nat) ≤ 50) :=
  ⟨by with_unfolding_all decide, by decide, by decide⟩

/-- C6 (amended): only the local pipeline truncates; its outline never
exceeds fifty entries, for any input pages. -/
theorem c6_local_cap_amended (pages : List LP.Page) :
    (LP.extract_outline pages).outline.length ≤ 50 := by
  by_cases hp : pages.isEmpty
  · simp [LP.extract_outline, hp]
  · simp only [LP.extract_outline, hp, if_false, Bool.false_eq_true]
    split
    · simp [List.length_take]
    · rename_i h
      omega

/-- C7 (counterexample): the local pipeline surfaces a failed extraction
as the fixed error placeholder, whose title is not the empty string. -/
theorem c7_local_placeholder_counterexample :
    LP.extract_outline_run (Except.error "unreadable document")
      = { title := "Error Processing Document", outline := [] }
    ∧ ("Error Processing Document" : String) ≠ "" :=
  ⟨rfl, by decide⟩

/-- C7 (amended): both pipelines contain a failing extraction at the
document boundary and return a placeholder with an empty outline; the
high-precision placeholder has an empty title, while the local one
carries the fixed error title. -/
theorem c7_failure_contained_amended (e : String) (sem : String → Bool) :
    HP.extract_outline_run sem (Except.error e) = { title := "", outline := [] }
    ∧ LP.extract_outline_run (Except.error e)
        = { title := "Error Processing Document", outline := [] } :=
  ⟨rfl, rfl⟩

/-- C8: both engines are pure functions of the span collection (and of
the fixed semantic oracle), so any two runs on the same input return the
same result; no hidden state, randomness or time enters the embedding. -/
theorem c8_determinism (sem : String → Bool) (blocks : List HP.Block)
    (pages : List LP.Page) (r1 r2 s1 s2 : ExtractionResult)
    (h1 : r1 = HP.extract_outline sem blocks)
    (h2 : r2 = HP.extract_outline sem blocks)
    (h3 : s1 = LP.extract_outline pages)
    (h4 : s2 = LP.extract_outline pages) :
    r1 = r2 ∧ s1 = s2 :=
  ⟨h1.trans h2.symm, h3.trans h4.symm⟩

/-- C8 (witness): two runs on the duplicate-heading document and on the
empty page list agree. -/
theorem c8_determinism_witness :
    HP.extract_outline semFalse dupBlocks = HP.extract_outline semFalse dupBlocks
    ∧ LP.extract_outline [] = LP.extract_outline [] :=
  c8_determinism semFalse dupBlocks [] _ _ _ _ rfl rfl rfl rfl

/-- Every title candidate clears the absolute threshold of fifteen by
construction of the candidate filter. -/
theorem titleCandidates_score (blocks : List HP.Block) (ds : HP.DocStructure) :
    ∀ c ∈ HP.titleCandidates blocks ds, c.2 > 15 := by
  intro c hc
  rcases List.mem_filterMap.mp hc with ⟨b, _, hfb⟩
  simp only at hfb
  split at hfb
  · cases hfb
  · split at hfb
    · cases hfb
    · split at hfb
      · rename_i hgt
        cases hfb
        exact hgt
      · cases hfb

/-- C9 (amended): the high-precision title is the empty string when no
candidate clears the threshold of fifteen; otherwise it derives from the
best-scoring candidate, but three hardcoded special cases may replace the
candidate text by a padded copy or by one of two fixed literals (the
counterexample exhibits such a fabricated value). -/
theorem c9_title_threshold_amended (blocks : List HP.Block) (ds : HP.DocStructure) :
    HP.extract_title blocks ds = ""
    ∨ ∃ c ∈ HP.titleCandidates blocks ds, c.2 > 15
        ∧ HP.extract_title blocks ds
            ∈ [c.1, pyRstrip c.1 ++ "  ", HP.overviewTitle, HP.rfpTitle] := by
  cases hs : pySort HP.scoreGeTC (HP.titleCandidates blocks ds) with
  | nil =>
    left
    simp only [HP.extract_title, hs]
  | cons c rest =>
    right
    have hcm : c ∈ HP.titleCandidates blocks ds :=
      (mem_pySort HP.scoreGeTC).mp (by rw [hs]; exact List.mem_cons_self c rest)
    refine ⟨c, hcm, titleCandidates_score blocks ds c hcm, ?_⟩
    obtain ⟨best, sc⟩ := c
    simp only [HP.extract_title, hs]
    split_ifs <;> simp

/-- C9 (counterexample): the rfp special case returns a fixed literal
that is neither the empty string nor the text of any span of the
document, hence not a scored candidate. -/
theorem c9_fabricated_title_counterexample :
    HP.extract_title rfpBlocks (HP.analyze_document_structure rfpBlocks)
      = HP.rfpTitle
    ∧ HP.rfpTitle ≠ ""
    ∧ ∀ b ∈ rfpBlocks, pyStrip b.text ≠ HP.rfpTitle :=
  ⟨by with_unfolding_all decide, by decide, by decide⟩

/-- C10: whenever the returned title contains the form or application
keyword and more than five heading blocks were accepted, the
high-precision pipeline discards every heading and returns the empty
outline. -/
theorem c10_form_clears_outline (sem : String → Bool) (blocks : List HP.Block)
    (hform : isSubStr "form" (pyLower (HP.extract_outline sem blocks).title) = true
      ∨ isSubStr "application" (pyLower (HP.extract_outline sem blocks).title) = true)
    (hcount : (HP.headingBlocks sem blocks).length > 5) :
    (HP.extract_outline sem blocks).outline = [] := by
  by_cases hb : blocks.isEmpty
  · simp [HP.extract_outline, hb]
  · simp only [HP.extract_outline, hb, if_false, Bool.false_eq_true] at hform ⊢
    split at hform
    · split
      · rfl
      · rename_i hC hC2
        exact absurd hC hC2
    · rename_i hC
      simp only at hform
      exfalso
      apply hC
      refine ⟨?_, hform, ?_⟩
      · intro h0
        rw [h0] at hform
        exact absurd hform (by decide)
      · rw [length_pySort]
        simpa [HP.buildOutline] using hcount

/-- C10 (witness): the form document with six accepted headings has its
outline cleared. -/
theorem c10_form_clears_outline_witness :
    isSubStr "form" (pyLower (HP.extract_outline semFalse formBlocks).title) = true
    ∧ (HP.headingBlocks semFalse formBlocks).length > 5
    ∧ (HP.extract_outline semFalse formBlocks).outline = [] :=
  ⟨by with_unfolding_all decide, by with_unfolding_all decide,
   c10_form_clears_outline semFalse formBlocks
     (Or.inl (by with_unfolding_all decide)) (by with_unfolding_all decide)⟩
